import Mathlib

/-!
# Verification of the Structured Export Pipeline

Shallow embedding of the two transformation cores of the repository:

* the XML-sitemap compiler of `src/pages/5_XML_sitemap_creator.py`
  (`validate_url`, `create_sitemap_from_dataframe`), and
* the keyword time-series reshaper of `src/pages/6_GEO_Search_Volume.py`
  (`process_api_response`).

Python values that flow through the sitemap column are modelled by the
sum type `RawCell` (NaN/None, a `str`, or another non-string value);
machine floats of the percentage computation are modelled by `ℚ`;
Python dicts are modelled by insertion-ordered association lists.
-/

namespace SeoTool

/-- One raw cell taken from the first column of the uploaded table.
`na` stands for a value with `pd.isna` true (NaN / None); `text` is a
Python `str`; `num` is any other non-string value (e.g. a number). -/
inductive RawCell where
  | na : RawCell
  | text : String → RawCell
  | num : Int → RawCell
deriving Repr, DecidableEq

/-- The whitespace characters Python `str.strip()` removes (restricted
to ASCII): space, tab, newline, carriage return, vertical tab, form
feed. -/
def pyWhitespace (c : Char) : Bool :=
  c == ' ' || c == '\t' || c == '\n' || c == '\r' || c == '\x0b' || c == '\x0c'

/-- Model of Python `str.strip()`: remove leading and trailing
whitespace. -/
def pyStrip (s : String) : String :=
  String.mk (((s.toList.dropWhile pyWhitespace).reverse.dropWhile pyWhitespace).reverse)

/-- Characters allowed in a URI scheme after the first one
(`urllib.parse`'s `scheme_chars`): letters, digits, `+`, `-`, `.`. -/
def schemeChar (c : Char) : Bool :=
  c.isAlpha || c.isDigit || c == '+' || c == '-' || c == '.'

/-- Split a character list at its first `':'`; `none` if there is no
colon. Returns the part before the colon and the part after it. -/
def splitOnColon : List Char → Option (List Char × List Char)
  | [] => none
  | c :: cs =>
    if c == ':' then some ([], cs)
    else
      match splitOnColon cs with
      | some (pre, post) => some (c :: pre, post)
      | none => none

/-- Scheme extraction of `urllib.parse.urlsplit`: if the text up to the
first colon is non-empty, starts with an ASCII letter and consists of
scheme characters, it is the (lower-cased) scheme and parsing continues
after the colon; otherwise the scheme is empty and nothing is consumed. -/
def extractScheme (cs : List Char) : List Char × List Char :=
  match splitOnColon cs with
  | some (pre, post) =>
    match pre with
    | [] => ([], cs)
    | c0 :: _ =>
      if c0.isAlpha && pre.all schemeChar then (pre.map Char.toLower, post)
      else ([], cs)
  | none => ([], cs)

/-- Take netloc characters up to the first `'/'`, `'?'` or `'#'`
(`urllib.parse._splitnetloc`). Returns the netloc and the rest. -/
def takeNetloc : List Char → List Char × List Char
  | [] => ([], [])
  | c :: cs =>
    if c == '/' || c == '?' || c == '#' then ([], c :: cs)
    else
      let (n, r) := takeNetloc cs
      (c :: n, r)

/-- Netloc extraction of `urllib.parse.urlsplit`: a netloc is present
exactly when the remaining text starts with `"//"`. -/
def extractNetloc : List Char → List Char × List Char
  | '/' :: '/' :: rest => takeNetloc rest
  | cs => ([], cs)

/-- The two URI components `validate_url` inspects. -/
structure UrlParts where
  scheme : String
  netloc : String
deriving Repr, DecidableEq

/-- Model of `urllib.parse.urlparse` restricted to the components the
program reads (`scheme`, `netloc`), after `urlsplit`'s removal of the
unsafe bytes tab/CR/LF from the whole URL.  `urlsplit` raises
`ValueError` on a netloc containing `'['` without `']'` (or vice
versa); that outcome is `none`. -/
def urlparse (s : String) : Option UrlParts :=
  let cs := s.toList.filter (fun c => !(c == '\t' || c == '\r' || c == '\n'))
  let (sch, rest) := extractScheme cs
  let (nl, _) := extractNetloc rest
  if (nl.contains '[' != nl.contains ']') then none
  else some ⟨String.mk sch, String.mk nl⟩

/-- The body of `validate_url`'s `try` block:
`result = urlparse(url.strip()); return all([result.scheme, result.netloc])`.
Calling `.strip()` on a non-string (NaN, None, a number) raises
`AttributeError`; a malformed netloc raises `ValueError` inside
`urlparse`. Both are modelled as `Except.error`. -/
def validate_try : RawCell → Except String Bool
  | RawCell.na => Except.error "AttributeError"
  | RawCell.num _ => Except.error "AttributeError"
  | RawCell.text s =>
    match urlparse (pyStrip s) with
    | none => Except.error "ValueError"
    | some r => Except.ok (!(r.scheme == "") && !(r.netloc == ""))

/-- `validate_url` of `5_XML_sitemap_creator.py` (lines 15–29): the
`try` body, with every exception caught by the bare `except` and turned
into `False`. -/
def validate_url (v : RawCell) : Bool :=
  match validate_try v with
  | Except.ok b => b
  | Except.error _ => false

/-- One `<url>` element of the sitemap document. -/
structure UrlEntry where
  location : String
  lastModified : String
  changeFrequency : String
  priority : String
deriving Repr, DecidableEq

/-- Result of `create_sitemap_from_dataframe`: the sequence of `<url>`
entries of the document together with `valid_urls`, `skipped_urls` and
`invalid_urls`. -/
structure CompileResult where
  entries : List UrlEntry
  validCount : Nat
  skippedCount : Nat
  invalidSamples : List String
deriving Repr, DecidableEq

/-- `create_sitemap_from_dataframe` of `5_XML_sitemap_creator.py`
(lines 31–99), as a recursion over the rows of the first column.  The
timestamp `current_date = datetime.now().astimezone().isoformat(...)`
is captured once before the loop; it enters here as the explicit
parameter `now`.  Per row: a NaN or non-string value only increments
`skipped_urls`; a string is stripped, and if `validate_url` rejects it
the original string is appended to `invalid_urls` and `skipped_urls`
grows; otherwise a `UrlEntry` is appended and `valid_urls` grows. -/
def create_sitemap_from_dataframe (changefreq priority now : String) :
    List RawCell → CompileResult
  | [] => ⟨[], 0, 0, []⟩
  | c :: rest =>
    let r := create_sitemap_from_dataframe changefreq priority now rest
    match c with
    | RawCell.text s =>
      let cleaned := pyStrip s
      if validate_url (RawCell.text cleaned) then
        { r with
            entries := ⟨cleaned, now, changefreq, priority⟩ :: r.entries
            validCount := r.validCount + 1 }
      else
        { r with
            skippedCount := r.skippedCount + 1
            invalidSamples := s :: r.invalidSamples }
    | _ => { r with skippedCount := r.skippedCount + 1 }

/-- One element of an item's `ai_monthly_searches` list: a
`(year, month, ai_search_volume)` observation. -/
structure MonthlySearch where
  year : Nat
  month : Nat
  volume : Nat
deriving Repr, DecidableEq

/-- One element of a result's `items` list: a keyword with its optional
monthly series and its scalar `ai_search_volume` fallback. -/
structure ApiItem where
  keyword : String
  monthly : List MonthlySearch
  volume : Nat
deriving Repr, DecidableEq

/-- One element of a task's `result` list; `items = none` models a
result object without an `'items'` key. -/
structure ResultItem where
  items : Option (List ApiItem)
deriving Repr, DecidableEq

/-- One element of the response's `tasks` list; `result = none` models
a task without a `'result'` key. -/
structure ApiTask where
  status_code : Nat
  result : Option (List ResultItem)
deriving Repr, DecidableEq

/-- Strict comparison of the sort key `(year, month)` used by
`sorted(..., key=lambda x: (x.get('year', 0), x.get('month', 0)), reverse=True)`. -/
def monthKeyLt (a b : MonthlySearch) : Bool :=
  a.year < b.year || (a.year == b.year && a.month < b.month)

/-- Insert a record into a descending-sorted list, after every record
with a strictly greater key and before the first record whose key is
not greater — so records with equal keys keep their original relative
order, as Python's stable `sorted` does. -/
def insertDesc (m : MonthlySearch) : List MonthlySearch → List MonthlySearch
  | [] => [m]
  | x :: xs => if monthKeyLt m x then x :: insertDesc m xs else m :: x :: xs

/-- Model of `sorted(monthly_data, key=..., reverse=True)`: stable sort
by `(year, month)` descending (most recent first). -/
def sortDesc : List MonthlySearch → List MonthlySearch
  | [] => []
  | m :: rest => insertDesc m (sortDesc rest)

/-- Bit length of a natural number (number of binary digits; 0 for 0),
carried on explicit fuel so the kernel can evaluate it. -/
def bitLenAux : Nat → Nat → Nat
  | 0, _ => 0
  | fuel + 1, m => if m = 0 then 0 else bitLenAux fuel (m / 2) + 1

/-- Bit length of a natural number: `bitLen m` is the least `k` with
`m < 2 ^ k`. -/
def bitLen (m : Nat) : Nat := bitLenAux m m

/-- Round the fraction `n / d` (with `d > 0`) to the nearest integer,
ties to even — the rounding IEEE-754 binary64 arithmetic and Python's
`round` both use. -/
def rndInt (n d : ℤ) : ℤ :=
  let q := n.ediv d
  let r := n.emod d
  if 2 * r < d then q
  else if d < 2 * r then q + 1
  else if q.emod 2 = 0 then q else q + 1

/-- Round the positive fraction `n / d` (`n, d ≥ 1`) to 53 significant
bits, nearest-even: the binary64 value of `n / d`, returned as a pair
`(m, e)` meaning `m * 2 ^ e` with `2 ^ 52 ≤ m ≤ 2 ^ 53`.  The exponent
is unbounded: volumes keep the quotients far from binary64
overflow and subnormal range, where this model is exact. -/
def fl53 (n d : ℤ) : ℤ × ℤ :=
  let bn := bitLen n.toNat
  let bd := bitLen d.toNat
  let diff : ℤ := (bn : ℤ) - (bd : ℤ)
  let e : ℤ :=
    if 0 ≤ diff then (if d * ((2 ^ diff.toNat : ℕ) : ℤ) ≤ n then diff else diff - 1)
    else (if d ≤ n * ((2 ^ (-diff).toNat : ℕ) : ℤ) then diff else diff - 1)
  let shift : ℤ := 52 - e
  let m :=
    if 0 ≤ shift then rndInt (n * ((2 ^ shift.toNat : ℕ) : ℤ)) d
    else rndInt n (d * ((2 ^ (-shift).toNat : ℕ) : ℤ))
  (m, e - 52)

/-- Python `int / int` true division for `d > 0`: the correctly rounded
binary64 quotient (CPython's `long_true_divide`), with the sign split
off (nearest-even rounding is symmetric). -/
def flDiv (n d : ℤ) : ℤ × ℤ :=
  if n = 0 then (0, 0)
  else if n < 0 then
    let p := fl53 (-n) d
    (-p.1, p.2)
  else fl53 n d

/-- Binary64 multiplication of the double `(m, e)` by 100: the product
`m * 100` (at most 60 bits) rounded back to 53 significant bits,
nearest-even. -/
def flMul100 (p : ℤ × ℤ) : ℤ × ℤ :=
  if p.1 = 0 then (0, 0)
  else
    let n := p.1 * 100
    let bl := bitLen n.natAbs
    if bl ≤ 53 then (n, p.2)
    else
      let k := bl - 53
      (rndInt n (((2 ^ k : ℕ) : ℤ)), p.2 + (k : ℤ))

/-- Python `round(x, 2)` applied to the double `(m, e)`, times 100:
the exact value `m * 2 ^ e * 100` rounded to the nearest integer, ties
to even — CPython rounds the exact decimal expansion of the binary
value (`_Py_dg_dtoa`).  The program stores the closest double to the
resulting 2-decimal value; this model keeps that decimal value itself,
which is what every display and export of the stored float shows. -/
def roundDec2z (p : ℤ × ℤ) : ℤ :=
  if 0 ≤ p.2 then p.1 * 100 * ((2 ^ p.2.toNat : ℕ) : ℤ)
  else rndInt (p.1 * 100) (((2 ^ (-p.2).toNat : ℕ) : ℤ))

/-- The integer `100 * round(((latest - oldest) / oldest) * 100, 2)` as
the program computes it: exact integer subtraction, correctly rounded
float division, float multiplication by 100, then Python's 2-decimal
round of the binary value. -/
def pyChangeTimes100 (latest oldest : ℤ) : ℤ :=
  roundDec2z (flMul100 (flDiv (latest - oldest) oldest))

/-- The `Change %` value of lines 111–120 and 134 of
`6_GEO_Search_Volume.py`: with the monthly data sorted most recent
first, `latest = sorted[0]`, `oldest = sorted[-1]`; if at least two
records exist and `oldest > 0` the value is
`round(((latest - oldest) / oldest) * 100, 2)` computed in binary64
floating point as `pyChangeTimes100` models it, otherwise `0`. -/
def changePercent (monthly : List MonthlySearch) : ℚ :=
  match sortDesc monthly with
  | [] => 0
  | [_] => 0
  | m :: x :: xs =>
    let oldest := ((x :: xs).getLastD x).volume
    if 0 < oldest then (pyChangeTimes100 (m.volume : ℤ) (oldest : ℤ) : ℚ) / 100 else 0

/-- The spec's "`((latest - oldest) / oldest) * 100`, rounded to 2
decimal places" read as exact-rational rounding with ties half-up; a
second definition following the spec's words, for comparison with the
program's `changePercent`. -/
def specRound2Up (q : ℚ) : ℚ := ((⌊q * 100 + 1 / 2⌋ : ℤ) : ℚ) / 100

/-- The spec's "rounded to 2 decimal places" read as exact-rational
rounding with ties to even; a second definition following the spec's
words, for comparison with the program's `changePercent`. -/
def specRound2Even (q : ℚ) : ℚ :=
  let z := ⌊q * 100⌋
  let fr := q * 100 - z
  if fr < 1 / 2 then (z : ℚ) / 100
  else if 1 / 2 < fr then ((z + 1 : ℤ) : ℚ) / 100
  else if z % 2 = 0 then (z : ℚ) / 100 else ((z + 1 : ℤ) : ℚ) / 100

/-- The `Latest Month Volume` value: the volume of the most recent
record after sorting (line 108), or the item's scalar volume when no
monthly data exists (line 133). -/
def latestVolume (item : ApiItem) : Nat :=
  match sortDesc item.monthly with
  | [] => item.volume
  | m :: _ => m.volume

/-- A cell of the report row: keyword/label strings, integer volumes,
or the (float-valued) percentage change. -/
inductive CellVal where
  | str : String → CellVal
  | nat : Nat → CellVal
  | rat : ℚ → CellVal
deriving Repr, DecidableEq

/-- A report row models the Python dict `row_data`: an association list
in key-insertion order with unique keys. -/
abbrev Row := List (String × CellVal)

/-- Python dict assignment `row[k] = v`: update in place when the key
exists (keeping its position), else append at the end. -/
def dictInsert (row : Row) (k : String) (v : CellVal) : Row :=
  if row.any (fun p => p.1 == k) then
    row.map (fun p => if p.1 == k then (k, v) else p)
  else row ++ [(k, v)]

/-- Two-digit month rendering of the format string `f"{month:02d}"`. -/
def pad2 (n : Nat) : String := if n < 10 then "0" ++ toString n else toString n

/-- The dynamic column name `f"{month:02d}/{year}"` of line 129. -/
def monthHeader (month year : Nat) : String := pad2 month ++ "/" ++ toString year

/-- Lines 93–136 of `6_GEO_Search_Volume.py`: build one keyword's
`row_data` dict. Keys are inserted in source order: `Keyword`,
`Language`, `Country`, then — when monthly data exists — `Latest Month
Volume`, `Change %` and one key per monthly record in descending
`(year, month)` order; without monthly data, the fallback volume and a
zero change. -/
def processItem (language_name location_name : String) (item : ApiItem) : Row :=
  let row0 : Row :=
    [("Keyword", CellVal.str item.keyword),
     ("Language", CellVal.str language_name),
     ("Country", CellVal.str location_name)]
  match sortDesc item.monthly with
  | [] =>
    dictInsert (dictInsert row0 "Latest Month Volume" (CellVal.nat item.volume))
      "Change %" (CellVal.rat 0)
  | m :: ms =>
    let row1 := dictInsert row0 "Latest Month Volume" (CellVal.nat (latestVolume item))
    let row2 := dictInsert row1 "Change %" (CellVal.rat (changePercent item.monthly))
    (m :: ms).foldl
      (fun r md => dictInsert r (monthHeader md.month md.year) (CellVal.nat md.volume)) row2

/-- The location-code-to-name map of lines 67–75, with the raw code as
fallback. -/
def location_name_of (c : Nat) : String :=
  if c = 2840 then "United States"
  else if c = 2826 then "United Kingdom"
  else if c = 2250 then "France"
  else if c = 2276 then "Germany"
  else if c = 2724 then "Spain"
  else if c = 2380 then "Italy"
  else if c = 2392 then "Japan"
  else toString c

/-- The language-code-to-name map of lines 77–84, with the raw code as
fallback. -/
def language_name_of (c : String) : String :=
  if c = "en" then "English"
  else if c = "fr" then "French"
  else if c = "de" then "German"
  else if c = "es" then "Spanish"
  else if c = "it" then "Italian"
  else if c = "ja" then "Japanese"
  else c

/-- The rows contributed by one task (lines 87–138): a task yields rows
only when `status_code == 20000` and a `result` key is present; then
every result item with an `items` key yields one row per item.  A
failing task only reports an error and contributes nothing. -/
def taskRows (language_name location_name : String) (t : ApiTask) : List Row :=
  match t.result with
  | some ris =>
    if t.status_code = 20000 then
      ris.flatMap (fun ri =>
        match ri.items with
        | some items => items.map (processItem language_name location_name)
        | none => [])
    else []
  | none => []

/-- `process_api_response` of `6_GEO_Search_Volume.py` (lines 59–140),
restricted to the list of result rows (the final
`pd.DataFrame(results)` is modelled by `dfColumns` below). -/
def process_api_response (tasks : List ApiTask) (location_code : Nat)
    (language_code : String) : List Row :=
  tasks.flatMap (taskRows (language_name_of language_code) (location_name_of location_code))

/-- The items of all successful tasks, in response order. -/
def reportItems (tasks : List ApiTask) : List ApiItem :=
  tasks.flatMap (fun t =>
    match t.result with
    | some ris =>
      if t.status_code = 20000 then
        ris.flatMap (fun ri =>
          match ri.items with
          | some items => items
          | none => [])
      else []
    | none => [])

/-- The keys of a row, in insertion order. -/
def rowKeys (row : Row) : List String := row.map (fun p => p.1)

/-- Add the keys of one row to the accumulated column list, keeping the
first-appearance position of keys already present. -/
def addKeys (cols : List String) (row : Row) : List String :=
  row.foldl (fun cs kv => if cs.contains kv.1 then cs else cs ++ [kv.1]) cols

/-- The column sequence of `pd.DataFrame(results)` built from a list of
dicts: the union of all rows' keys, ordered by first appearance (row by
row, and within a row in key-insertion order). -/
def dfColumns (rows : List Row) : List String := rows.foldl addKeys []

/-- The five fixed descriptive columns every row carries. -/
def fixedCols : List String :=
  ["Keyword", "Language", "Country", "Latest Month Volume", "Change %"]

/-- Look up a key in a row (Python `row[k]` read access). -/
def rowGet (row : Row) (k : String) : Option CellVal :=
  (row.find? (fun p => p.1 == k)).map (fun p => p.2)

/-! ## Derived views of the sitemap compiler, used by the theorems -/

/-- The location a row contributes to the document when it is valid:
the stripped text of a string row accepted by `validate_url`. -/
def validRowLoc : RawCell → Option String
  | RawCell.text s =>
    if validate_url (RawCell.text (pyStrip s)) then some (pyStrip s) else none
  | _ => none

/-- The sample a row contributes to `invalid_urls`: the original
(unstripped) text of a string row rejected by `validate_url`. -/
def invalidTextSample : RawCell → Option String
  | RawCell.text s =>
    if validate_url (RawCell.text (pyStrip s)) then none else some s
  | _ => none

/-! ## Lemmas about the sitemap compiler -/

theorem mem_entries_lastModified (changefreq priority now : String)
    (rows : List RawCell) (e : UrlEntry)
    (he : e ∈ (create_sitemap_from_dataframe changefreq priority now rows).entries) :
    e.lastModified = now := by
  induction rows with
  | nil => simp [create_sitemap_from_dataframe] at he
  | cons c rest ih =>
    cases c with
    | na => exact ih he
    | num n => exact ih he
    | text s =>
      by_cases h : validate_url (RawCell.text (pyStrip s)) = true
      · simp [create_sitemap_from_dataframe, h] at he
        rcases he with he | he
        · rw [he]
        · exact ih he
      · simp only [Bool.not_eq_true] at h
        simp [create_sitemap_from_dataframe, h] at he
        exact ih he

theorem entries_map_location (changefreq priority now : String) (rows : List RawCell) :
    ((create_sitemap_from_dataframe changefreq priority now rows).entries.map
        (fun e => e.location)) = rows.filterMap validRowLoc := by
  induction rows with
  | nil => rfl
  | cons c rest ih =>
    cases c with
    | na => simpa [create_sitemap_from_dataframe, validRowLoc] using ih
    | num n => simpa [create_sitemap_from_dataframe, validRowLoc] using ih
    | text s =>
      by_cases h : validate_url (RawCell.text (pyStrip s)) = true
      · simp [create_sitemap_from_dataframe, validRowLoc, h, ih]
      · simp only [Bool.not_eq_true] at h
        simp [create_sitemap_from_dataframe, validRowLoc, h, ih]

/-! ## Claim theorems about the sitemap compiler -/

/-- C2: `validate_url` accepts a value exactly when it is text that,
after trimming, parses into a URI with a non-empty scheme and a
non-empty authority; in particular `"https://example.com"` is accepted
while `"example.com"`, `"/page"`, the empty string and an absent value
are rejected. -/
theorem validate_url_spec :
    (∀ v : RawCell,
      validate_url v = true ↔
        ∃ s, v = RawCell.text s ∧ pyStrip s ≠ "" ∧
          ∃ u, urlparse (pyStrip s) = some u ∧ u.scheme ≠ "" ∧ u.netloc ≠ "") ∧
    validate_url (RawCell.text "https://example.com") = true ∧
    validate_url (RawCell.text "example.com") = false ∧
    validate_url (RawCell.text "/page") = false ∧
    validate_url (RawCell.text "") = false ∧
    validate_url RawCell.na = false := by
  refine ⟨?_, by decide, by decide, by decide, by decide, by decide⟩
  intro v
  cases v with
  | na => simp [validate_url, validate_try]
  | num n => simp [validate_url, validate_try]
  | text s =>
    cases h : urlparse (pyStrip s) with
    | none => simp [validate_url, validate_try, h]
    | some u =>
      simp only [validate_url, validate_try, h, Bool.and_eq_true, Bool.not_eq_true',
        beq_eq_false_iff_ne, ne_eq]
      constructor
      · rintro ⟨hs, hn⟩
        refine ⟨s, rfl, ?_, u, h, hs, hn⟩
        intro hempty
        rw [hempty] at h
        have : u = ⟨"", ""⟩ := by
          have h0 : urlparse "" = some ⟨"", ""⟩ := rfl
          rw [h0] at h
          exact (Option.some_inj.mp h).symm
        exact hs (by rw [this])
      · rintro ⟨s', hs', hne, u', hu', h1, h2⟩
        have hss : s' = s := by
          cases hs'
          rfl
        subst hss
        rw [h] at hu'
        have : u' = u := Option.some_inj.mp hu'.symm
        subst this
        exact ⟨h1, h2⟩

/-- C10: `validate_url` is total — on every value it returns a boolean,
and on every non-text value (NaN/None or a number) it returns `false`
because the `try` body raises and the bare `except` catches the
exception. -/
theorem validate_url_total :
    (∀ v : RawCell,
      (validate_url v = true ∨ validate_url v = false) ∧
      ((∀ s, v ≠ RawCell.text s) →
        validate_url v = false ∧ ∃ e, validate_try v = Except.error e)) ∧
    validate_url RawCell.na = false ∧
    validate_url (RawCell.num 3) = false := by
  refine ⟨?_, by decide, by decide⟩
  intro v
  refine ⟨?_, ?_⟩
  · cases h : validate_url v with
    | true => exact Or.inl rfl
    | false => exact Or.inr rfl
  · cases v with
    | na => exact fun _ => ⟨rfl, "AttributeError", rfl⟩
    | num n => exact fun _ => ⟨rfl, "AttributeError", rfl⟩
    | text s => exact fun h => absurd rfl (h s)

/-- C3 counterexample: a merely blank row — the whitespace string
`"   "` — is recorded in `invalid_urls`, contrary to the claim that
blank rows are never recorded in the invalid samples. -/
theorem blank_row_recorded :
    (create_sitemap_from_dataframe "weekly" "0.8" "T"
        [RawCell.text "   "]).invalidSamples = ["   "] ∧
    pyStrip "   " = "" ∧
    (create_sitemap_from_dataframe "weekly" "0.8" "T"
        [RawCell.text "   "]).skippedCount = 1 := by
  decide

/-- C3 (amended): absent (NaN/None) and non-text rows are counted in
`skipped_urls` and never recorded in `invalid_urls`; every text row
that fails URL validation — including empty or whitespace-only text —
is counted in `skipped_urls` and recorded in `invalid_urls`. -/
theorem invalid_samples_spec :
    ∀ changefreq priority now rows,
      (create_sitemap_from_dataframe changefreq priority now rows).invalidSamples
          = rows.filterMap invalidTextSample ∧
      (create_sitemap_from_dataframe changefreq priority now rows).skippedCount
          = rows.countP (fun c => (validRowLoc c).isNone) := by
  intro changefreq priority now rows
  induction rows with
  | nil => exact ⟨rfl, rfl⟩
  | cons c rest ih =>
    obtain ⟨ih1, ih2⟩ := ih
    cases c with
    | na =>
      simpa [create_sitemap_from_dataframe, invalidTextSample, validRowLoc,
        List.countP_cons] using ⟨ih1, ih2⟩
    | num n =>
      simpa [create_sitemap_from_dataframe, invalidTextSample, validRowLoc,
        List.countP_cons] using ⟨ih1, ih2⟩
    | text s =>
      by_cases h : validate_url (RawCell.text (pyStrip s)) = true
      · simp [create_sitemap_from_dataframe, invalidTextSample, validRowLoc, h,
          List.countP_cons, ih1, ih2]
      · simp only [Bool.not_eq_true] at h
        simp [create_sitemap_from_dataframe, invalidTextSample, validRowLoc, h,
          List.countP_cons, ih1, ih2]

/-- C4: the compiler is order-preserving and never re-sorts or
deduplicates — the locations of the output document are exactly the
stripped valid rows in input order, one entry per valid row even for
duplicates; on `["https://a.com", "bad", "https://b.com"]` it yields
the entries `[a.com, b.com]` with `validCount = 2` and
`skippedCount = 1`. -/
theorem sitemap_order_preserving :
    (∀ changefreq priority now rows,
      ((create_sitemap_from_dataframe changefreq priority now rows).entries.map
          (fun e => e.location)) = rows.filterMap validRowLoc) ∧
    ((create_sitemap_from_dataframe "weekly" "0.8" "T"
        [RawCell.text "https://a.com", RawCell.text "bad",
         RawCell.text "https://b.com"]).entries.map (fun e => e.location)
      = ["https://a.com", "https://b.com"]) ∧
    (create_sitemap_from_dataframe "weekly" "0.8" "T"
        [RawCell.text "https://a.com", RawCell.text "bad",
         RawCell.text "https://b.com"]).validCount = 2 ∧
    (create_sitemap_from_dataframe "weekly" "0.8" "T"
        [RawCell.text "https://a.com", RawCell.text "bad",
         RawCell.text "https://b.com"]).skippedCount = 1 ∧
    ((create_sitemap_from_dataframe "weekly" "0.8" "T"
        [RawCell.text "https://a.com", RawCell.text "https://a.com"]).entries.map
          (fun e => e.location)
      = ["https://a.com", "https://a.com"]) := by
  exact ⟨entries_map_location, by decide, by decide, by decide, by decide⟩

/-- C5: every entry produced by one compile call carries the single
timestamp captured before the loop, so the `lastModified` fields of any
two entries of one document are equal. -/
theorem sitemap_shared_timestamp :
    ∀ (changefreq priority now : String) (rows : List RawCell) (e₁ e₂ : UrlEntry),
      e₁ ∈ (create_sitemap_from_dataframe changefreq priority now rows).entries →
      e₂ ∈ (create_sitemap_from_dataframe changefreq priority now rows).entries →
      e₁.lastModified = now ∧ e₁.lastModified = e₂.lastModified := by
  intro changefreq priority now rows e₁ e₂ h₁ h₂
  have g₁ := mem_entries_lastModified changefreq priority now rows e₁ h₁
  have g₂ := mem_entries_lastModified changefreq priority now rows e₂ h₂
  exact ⟨g₁, by rw [g₁, g₂]⟩

/-- C5 witness: the two entries of a concrete two-row compile share the
captured timestamp `"T"`. -/
theorem sitemap_shared_timestamp_witness :
    (⟨"https://a.com", "T", "weekly", "0.8"⟩ : UrlEntry).lastModified = "T" ∧
    (⟨"https://a.com", "T", "weekly", "0.8"⟩ : UrlEntry).lastModified
      = (⟨"https://b.com", "T", "weekly", "0.8"⟩ : UrlEntry).lastModified :=
  sitemap_shared_timestamp "weekly" "0.8" "T"
    [RawCell.text "https://a.com", RawCell.text "https://b.com"]
    ⟨"https://a.com", "T", "weekly", "0.8"⟩
    ⟨"https://b.com", "T", "weekly", "0.8"⟩ (by decide) (by decide)

/-- C8: the counting invariant of the compiler — valid plus skipped
rows exhaust the input, the document holds exactly `validCount`
entries, and at most `skippedCount` samples are recorded. -/
theorem sitemap_counts :
    ∀ changefreq priority now rows,
      (create_sitemap_from_dataframe changefreq priority now rows).validCount
          + (create_sitemap_from_dataframe changefreq priority now rows).skippedCount
          = rows.length ∧
      (create_sitemap_from_dataframe changefreq priority now rows).entries.length
          = (create_sitemap_from_dataframe changefreq priority now rows).validCount ∧
      (create_sitemap_from_dataframe changefreq priority now rows).invalidSamples.length
          ≤ (create_sitemap_from_dataframe changefreq priority now rows).skippedCount := by
  intro changefreq priority now rows
  induction rows with
  | nil => exact ⟨rfl, rfl, Nat.le_refl 0⟩
  | cons c rest ih =>
    obtain ⟨ih1, ih2, ih3⟩ := ih
    cases c with
    | na =>
      refine ⟨?_, ?_, ?_⟩ <;> simp [create_sitemap_from_dataframe] <;> omega
    | num n =>
      refine ⟨?_, ?_, ?_⟩ <;> simp [create_sitemap_from_dataframe] <;> omega
    | text s =>
      by_cases h : validate_url (RawCell.text (pyStrip s)) = true
      · refine ⟨?_, ?_, ?_⟩ <;> simp [create_sitemap_from_dataframe, h] <;> omega
      · simp only [Bool.not_eq_true] at h
        refine ⟨?_, ?_, ?_⟩ <;> simp [create_sitemap_from_dataframe, h] <;> omega

/-! ## Lemmas about the reshaper -/

theorem insertDesc_perm (m : MonthlySearch) (l : List MonthlySearch) :
    (insertDesc m l).Perm (m :: l) := by
  induction l with
  | nil => exact List.Perm.refl _
  | cons x xs ih =>
    unfold insertDesc
    by_cases h : monthKeyLt m x = true
    · simp only [h, if_true]
      exact (ih.cons x).trans (List.Perm.swap m x xs)
    · rw [if_neg h]

theorem sortDesc_perm (l : List MonthlySearch) : (sortDesc l).Perm l := by
  induction l with
  | nil => exact List.Perm.refl _
  | cons m rest ih => exact (insertDesc_perm m (sortDesc rest)).trans (ih.cons m)

theorem length_sortDesc (l : List MonthlySearch) : (sortDesc l).length = l.length :=
  (sortDesc_perm l).length_eq

theorem mem_sortDesc (a : MonthlySearch) (l : List MonthlySearch) :
    a ∈ sortDesc l ↔ a ∈ l :=
  (sortDesc_perm l).mem_iff

theorem rowKeys_map_update (row : Row) (k : String) (v : CellVal) :
    rowKeys (row.map (fun p => if p.1 == k then (k, v) else p)) = rowKeys row := by
  induction row with
  | nil => rfl
  | cons p ps ih =>
    simp only [rowKeys, List.map_cons, List.map_map] at ih ⊢
    by_cases h : p.1 == k
    · simp only [h, if_true]
      exact congrArg₂ List.cons (by simpa using (beq_iff_eq.mp h).symm) ih
    · simp only [h, if_false]
      exact congrArg₂ List.cons rfl ih

theorem mem_rowKeys_dictInsert (row : Row) (k : String) (v : CellVal) (a : String) :
    a ∈ rowKeys (dictInsert row k v) ↔ a ∈ rowKeys row ∨ a = k := by
  unfold dictInsert
  by_cases h : row.any (fun p => p.1 == k)
  · simp only [h, if_true, rowKeys_map_update]
    constructor
    · exact Or.inl
    · rintro (ha | ha)
      · exact ha
      · obtain ⟨p, hp, hpk⟩ := List.any_eq_true.mp h
        subst ha
        rw [← beq_iff_eq.mp hpk]
        exact List.mem_map.mpr ⟨p, hp, rfl⟩
  · simp [h, rowKeys, List.mem_append]

theorem mem_rowKeys_foldMonths (l : List MonthlySearch) (row : Row) (a : String) :
    a ∈ rowKeys (l.foldl
        (fun r md => dictInsert r (monthHeader md.month md.year) (CellVal.nat md.volume)) row)
      ↔ a ∈ rowKeys row ∨ ∃ md ∈ l, a = monthHeader md.month md.year := by
  induction l generalizing row with
  | nil => simp
  | cons md mds ih =>
    simp only [List.foldl_cons, ih, mem_rowKeys_dictInsert, List.mem_cons]
    constructor
    · rintro ((ha | ha) | ⟨x, hx, hax⟩)
      · exact Or.inl ha
      · exact Or.inr ⟨md, Or.inl rfl, ha⟩
      · exact Or.inr ⟨x, Or.inr hx, hax⟩
    · rintro (ha | ⟨x, hx | hx, hax⟩)
      · exact Or.inl (Or.inl ha)
      · subst hx
        exact Or.inl (Or.inr hax)
      · exact Or.inr ⟨x, hx, hax⟩

theorem mem_rowKeys_processItem (language_name location_name : String) (item : ApiItem)
    (a : String) :
    a ∈ rowKeys (processItem language_name location_name item) ↔
      a ∈ fixedCols ∨ ∃ md ∈ item.monthly, a = monthHeader md.month md.year := by
  unfold processItem
  cases h : sortDesc item.monthly with
  | nil =>
    have hnil : item.monthly = [] := by
      have := sortDesc_perm item.monthly
      rw [h] at this
      exact (this.symm.eq_nil)
    rw [hnil]
    simp only [mem_rowKeys_dictInsert]
    simp [rowKeys, fixedCols]
    tauto
  | cons m ms =>
    have hmem : ∀ md : MonthlySearch, md ∈ m :: ms ↔ md ∈ item.monthly := by
      intro md
      rw [← h]
      exact mem_sortDesc md item.monthly
    have hEx : (∃ md ∈ m :: ms, a = monthHeader md.month md.year)
        ↔ ∃ md ∈ item.monthly, a = monthHeader md.month md.year := by
      constructor
      · rintro ⟨md, hmd, ha⟩
        exact ⟨md, (hmem md).mp hmd, ha⟩
      · rintro ⟨md, hmd, ha⟩
        exact ⟨md, (hmem md).mpr hmd, ha⟩
    simp only [mem_rowKeys_foldMonths, mem_rowKeys_dictInsert, hEx]
    have hrow0 : a ∈ rowKeys
        [("Keyword", CellVal.str item.keyword), ("Language", CellVal.str language_name),
         ("Country", CellVal.str location_name)]
        ↔ a = "Keyword" ∨ a = "Language" ∨ a = "Country" := by
      simp [rowKeys]
    rw [hrow0]
    simp only [fixedCols, List.mem_cons, List.not_mem_nil, or_false]
    tauto

theorem mem_addKeys (cols : List String) (row : Row) (a : String) :
    a ∈ addKeys cols row ↔ a ∈ cols ∨ a ∈ rowKeys row := by
  unfold addKeys
  induction row generalizing cols with
  | nil => simp [rowKeys]
  | cons p ps ih =>
    simp only [List.foldl_cons, rowKeys, List.map_cons, List.mem_cons]
    by_cases h : cols.contains p.1
    · rw [if_pos h, ih]
      have hp : p.1 ∈ cols := by simpa using h
      simp only [rowKeys]
      constructor
      · rintro (ha | ha)
        · exact Or.inl ha
        · exact Or.inr (Or.inr ha)
      · rintro (ha | ha | ha)
        · exact Or.inl ha
        · subst ha
          exact Or.inl hp
        · exact Or.inr ha
    · rw [if_neg h, ih]
      simp only [rowKeys, List.mem_append, List.mem_singleton]
      tauto

theorem mem_foldl_addKeys (rows : List Row) (init : List String) (a : String) :
    a ∈ rows.foldl addKeys init ↔ a ∈ init ∨ ∃ row ∈ rows, a ∈ rowKeys row := by
  induction rows generalizing init with
  | nil => simp
  | cons row rest ih =>
    simp only [List.foldl_cons, ih, mem_addKeys, List.mem_cons]
    constructor
    · rintro ((ha | ha) | ⟨r, hr, har⟩)
      · exact Or.inl ha
      · exact Or.inr ⟨row, Or.inl rfl, ha⟩
      · exact Or.inr ⟨r, Or.inr hr, har⟩
    · rintro (ha | ⟨r, hr | hr, har⟩)
      · exact Or.inl (Or.inl ha)
      · subst hr
        exact Or.inl (Or.inr har)
      · exact Or.inr ⟨r, hr, har⟩

theorem mem_dfColumns (rows : List Row) (a : String) :
    a ∈ dfColumns rows ↔ ∃ row ∈ rows, a ∈ rowKeys row := by
  unfold dfColumns
  simp [mem_foldl_addKeys]

/-- The items of one task, as `taskRows` walks them. -/
def taskItems (t : ApiTask) : List ApiItem :=
  match t.result with
  | some ris =>
    if t.status_code = 20000 then
      ris.flatMap (fun ri =>
        match ri.items with
        | some items => items
        | none => [])
    else []
  | none => []

theorem flatMap_items_map (f : ApiItem → Row) (ris : List ResultItem) :
    (ris.flatMap (fun ri =>
        match ri.items with
        | some items => items.map f
        | none => []))
      = (ris.flatMap (fun ri =>
          match ri.items with
          | some items => items
          | none => [])).map f := by
  induction ris with
  | nil => rfl
  | cons ri rest ih =>
    rw [List.flatMap_cons, List.flatMap_cons, List.map_append, ih]
    cases ri.items with
    | none => rfl
    | some items => rfl

theorem taskRows_eq_map (language_name location_name : String) (t : ApiTask) :
    taskRows language_name location_name t
      = (taskItems t).map (processItem language_name location_name) := by
  unfold taskRows taskItems
  cases hr : t.result with
  | none => rfl
  | some ris =>
    by_cases hs : t.status_code = 20000
    · simp only [hs, if_true]
      exact flatMap_items_map _ ris
    · simp [hs]

theorem reportItems_eq (tasks : List ApiTask) :
    reportItems tasks = tasks.flatMap taskItems := by
  unfold reportItems taskItems
  rfl

theorem process_eq_map (tasks : List ApiTask) (location_code : Nat)
    (language_code : String) :
    process_api_response tasks location_code language_code
      = (reportItems tasks).map
          (processItem (language_name_of language_code) (location_name_of location_code)) := by
  rw [reportItems_eq]
  unfold process_api_response
  induction tasks with
  | nil => rfl
  | cons t ts ih =>
    simp only [List.flatMap_cons, List.map_append, ih, taskRows_eq_map]

/-! ## Claim theorems about the reshaper -/

/-- C1 counterexample: with keyword A carrying months 01/2024 and
02/2024 and keyword B carrying 02/2024 and 03/2024, the report's
month-label columns come out in first-appearance order
`[02/2024, 01/2024, 03/2024]`, not in the claimed descending order
`[03/2024, 02/2024, 01/2024]`. -/
theorem report_columns_not_descending :
    (dfColumns (process_api_response
        [⟨20000, some [⟨some [⟨"A", [⟨2024, 1, 100⟩, ⟨2024, 2, 150⟩], 0⟩,
                              ⟨"B", [⟨2024, 2, 120⟩, ⟨2024, 3, 130⟩], 0⟩]⟩]⟩]
        2840 "en")).filter (fun c => !(fixedCols.contains c))
      = ["02/2024", "01/2024", "03/2024"] ∧
    ["02/2024", "01/2024", "03/2024"] ≠ ["03/2024", "02/2024", "01/2024"] := by
  decide

/-- C1 (amended): the report's column set is the five fixed columns
together with the union of all keywords' month labels across the
batch; the order of the month-label columns is first-appearance order
(each keyword contributes its labels most-recent-first, keywords in
response order), not globally descending by `(year, month)` — as the
concrete batch of the second conjunct shows. -/
theorem report_columns_spec :
    (∀ (tasks : List ApiTask) (location_code : Nat) (language_code : String) (c : String),
      c ∈ dfColumns (process_api_response tasks location_code language_code) ↔
        ∃ item ∈ reportItems tasks,
          (c ∈ fixedCols ∨ ∃ md ∈ item.monthly, c = monthHeader md.month md.year)) ∧
    dfColumns (process_api_response
        [⟨20000, some [⟨some [⟨"A", [⟨2024, 1, 100⟩, ⟨2024, 2, 150⟩], 0⟩,
                              ⟨"B", [⟨2024, 2, 120⟩, ⟨2024, 3, 130⟩], 0⟩]⟩]⟩]
        2840 "en")
      = ["Keyword", "Language", "Country", "Latest Month Volume", "Change %",
         "02/2024", "01/2024", "03/2024"] := by
  constructor
  · intro tasks location_code language_code c
    rw [process_eq_map, mem_dfColumns]
    constructor
    · rintro ⟨row, hrow, hc⟩
      obtain ⟨item, hitem, rfl⟩ := List.mem_map.mp hrow
      exact ⟨item, hitem, (mem_rowKeys_processItem _ _ item c).mp hc⟩
    · rintro ⟨item, hitem, hc⟩
      exact ⟨processItem _ _ item, List.mem_map.mpr ⟨item, hitem, rfl⟩,
        (mem_rowKeys_processItem _ _ item c).mpr hc⟩
  · decide

/-- C6 counterexample: at oldest volume 4000 and latest volume 4107 the
exact change is `2.675 %`, which "rounded to 2 decimal places" is
`2.68` under the half-up and the half-even convention alike — but the
program's binary-float computation yields `2.67`
(`round(((4107 - 4000) / 4000) * 100, 2) == 2.67`). -/
theorem changePercent_not_exact_rounding :
    changePercent [⟨2024, 1, 4000⟩, ⟨2024, 2, 4107⟩] = 267 / 100 ∧
    (((4107 : ℚ) - 4000) / 4000) * 100 = 2675 / 1000 ∧
    specRound2Up (2675 / 1000) = 268 / 100 ∧
    specRound2Even (2675 / 1000) = 268 / 100 ∧
    ((267 : ℚ) / 100) ≠ 268 / 100 := by
  refine ⟨?_, by norm_num, ?_, ?_, by norm_num⟩
  · have hs : sortDesc [⟨2024, 1, 4000⟩, ⟨2024, 2, 4107⟩]
        = [⟨2024, 2, 4107⟩, ⟨2024, 1, 4000⟩] := by decide
    have hv : pyChangeTimes100 4107 4000 = 267 := by decide
    unfold changePercent
    rw [hs]
    norm_num [hv]
  · have hf : (⌊(2675 : ℚ) / 1000 * 100 + 1 / 2⌋ : ℤ) = 268 := by
      rw [Int.floor_eq_iff]
      norm_num
    unfold specRound2Up
    rw [hf]
    norm_num
  · have hf : (⌊(2675 : ℚ) / 1000 * 100⌋ : ℤ) = 267 := by
      rw [Int.floor_eq_iff]
      norm_num
    unfold specRound2Even
    rw [hf]
    norm_num

/-- C6 (amended): with at least two monthly records and a nonzero
oldest volume (the last record after sorting descending), the
percentage change is `((latest - oldest) / oldest) * 100` evaluated in
binary64 floating point and rounded to two decimals by Python's
`round` (ties to even on the binary value), as `pyChangeTimes100`
models — which can differ in the last digit from rounding the exact
quotient; with a zero oldest volume or fewer than two records it is
`0`.  The concrete conjuncts check the spec's `(100, 150) ↦ 50`
example, the float behaviour `(32, 33) ↦ 3.12` (half-even at the
exactly representable tie `3.125`), and the zero cases. -/
theorem changePercent_spec :
    (∀ monthly : List MonthlySearch,
      (∀ latest oldest : MonthlySearch,
        (sortDesc monthly).head? = some latest →
        (sortDesc monthly).getLast? = some oldest →
        2 ≤ monthly.length →
        changePercent monthly
          = if oldest.volume = 0 then 0
            else (pyChangeTimes100 (latest.volume : ℤ) (oldest.volume : ℤ) : ℚ) / 100) ∧
      (monthly.length < 2 → changePercent monthly = 0)) ∧
    changePercent [⟨2024, 1, 100⟩, ⟨2024, 2, 150⟩] = 50 ∧
    changePercent [⟨2024, 1, 32⟩, ⟨2024, 2, 33⟩] = 312 / 100 ∧
    changePercent [⟨2024, 1, 0⟩, ⟨2024, 2, 150⟩] = 0 ∧
    changePercent [⟨2024, 1, 100⟩] = 0 ∧
    changePercent [] = 0 := by
  refine ⟨?_, ?_, ?_, ?_, by rfl, by rfl⟩
  case refine_2 =>
    have hs : sortDesc [⟨2024, 1, 100⟩, ⟨2024, 2, 150⟩]
        = [⟨2024, 2, 150⟩, ⟨2024, 1, 100⟩] := by decide
    have hv : pyChangeTimes100 150 100 = 5000 := by decide
    unfold changePercent
    rw [hs]
    norm_num [hv]
  case refine_3 =>
    have hs : sortDesc [⟨2024, 1, 32⟩, ⟨2024, 2, 33⟩]
        = [⟨2024, 2, 33⟩, ⟨2024, 1, 32⟩] := by decide
    have hv : pyChangeTimes100 33 32 = 312 := by decide
    unfold changePercent
    rw [hs]
    norm_num [hv]
  case refine_4 =>
    have hs : sortDesc [⟨2024, 1, 0⟩, ⟨2024, 2, 150⟩]
        = [⟨2024, 2, 150⟩, ⟨2024, 1, 0⟩] := by decide
    unfold changePercent
    rw [hs]
    norm_num
  intro monthly
  constructor
  · intro latest oldest h1 h2 hlen
    cases h : sortDesc monthly with
    | nil =>
      rw [h] at h1
      simp at h1
    | cons m rest =>
      cases rest with
      | nil =>
        have hl := length_sortDesc monthly
        rw [h] at hl
        simp at hl
        omega
      | cons x xs =>
        rw [h] at h1 h2
        simp only [List.head?_cons, Option.some_inj] at h1
        have h2' : (x :: xs).getLastD x = oldest := by
          rw [List.getLast?_cons_cons] at h2
          rw [List.getLastD_eq_getLast?, h2]
          rfl
        have hcp : changePercent monthly
            = if 0 < ((x :: xs).getLastD x).volume then
                (pyChangeTimes100 (m.volume : ℤ)
                  ((((x :: xs).getLastD x).volume : ℕ) : ℤ) : ℚ) / 100
              else 0 := by
          unfold changePercent
          rw [h]
        rw [hcp, h1, h2']
        by_cases hz : oldest.volume = 0
        · rw [if_neg (by omega), if_pos hz]
        · rw [if_pos (Nat.pos_of_ne_zero hz), if_neg hz]
  · intro hlen
    cases h : sortDesc monthly with
    | nil =>
      unfold changePercent
      rw [h]
    | cons m rest =>
      cases rest with
      | nil =>
        unfold changePercent
        rw [h]
      | cons x xs =>
        have hl := length_sortDesc monthly
        rw [h] at hl
        simp at hl
        omega

/-- C7: a task with a non-success status code contributes no keyword
rows to the report — removing it from the response leaves the rows of
the remaining (successful) tasks unchanged. -/
theorem failed_task_excluded :
    ∀ (location_code : Nat) (language_code : String) (pre post : List ApiTask)
      (bad : ApiTask),
      bad.status_code ≠ 20000 →
      process_api_response (pre ++ bad :: post) location_code language_code
        = process_api_response (pre ++ post) location_code language_code := by
  intro location_code language_code pre post bad hbad
  unfold process_api_response
  rw [List.flatMap_append, List.flatMap_append, List.flatMap_cons]
  have hrows : taskRows (language_name_of language_code)
      (location_name_of location_code) bad = [] := by
    unfold taskRows
    cases bad.result with
    | none => rfl
    | some ris => exact if_neg hbad
  rw [hrows, List.nil_append]

/-- C7 witness: a concrete response holding one failed task
(status 40501) and one successful task yields exactly the successful
task's rows. -/
theorem failed_task_excluded_witness :
    process_api_response
        [⟨40501, some [⟨some [⟨"A", [⟨2024, 1, 100⟩], 0⟩]⟩]⟩,
         ⟨20000, some [⟨some [⟨"B", [], 7⟩]⟩]⟩] 2840 "en"
      = process_api_response [⟨20000, some [⟨some [⟨"B", [], 7⟩]⟩]⟩] 2840 "en" :=
  failed_task_excluded 2840 "en" [] [⟨20000, some [⟨some [⟨"B", [], 7⟩]⟩]⟩]
    ⟨40501, some [⟨some [⟨"A", [⟨2024, 1, 100⟩], 0⟩]⟩]⟩ (by decide)

/-- C9: the reshaper is deterministic — its result depends only on the
provided tasks, location code and language code, with no hidden state. -/
theorem reshape_deterministic :
    ∀ (tasks₁ tasks₂ : List ApiTask) (loc₁ loc₂ : Nat) (lang₁ lang₂ : String),
      tasks₁ = tasks₂ → loc₁ = loc₂ → lang₁ = lang₂ →
      process_api_response tasks₁ loc₁ lang₁ = process_api_response tasks₂ loc₂ lang₂ := by
  intro tasks₁ tasks₂ loc₁ loc₂ lang₁ lang₂ h₁ h₂ h₃
  subst h₁
  subst h₂
  subst h₃
  rfl

/-- C9 witness: two invocations on one concrete batch coincide. -/
theorem reshape_deterministic_witness :
    process_api_response [⟨20000, some [⟨some [⟨"A", [⟨2024, 1, 100⟩], 0⟩]⟩]⟩] 2840 "en"
      = process_api_response [⟨20000, some [⟨some [⟨"A", [⟨2024, 1, 100⟩], 0⟩]⟩]⟩] 2840 "en" :=
  reshape_deterministic _ _ _ _ _ _ rfl rfl rfl

end SeoTool
